import Mathlib

/- Verification development for the pennywise receipt-ingestion service.

   It shallowly embeds the two cores of the code base:
   the LLM-reply extraction and normalization pipeline
   (apps/receipts/services/llm_adapter.py) and the idempotent
   job-dispatch view (apps/receipts/views.py together with the Job model
   of apps/receipts/models.py), and proves theorems checking the
   specification's claims about them. -/

namespace Pennywise

/-- Exact decimal numbers, modelling the Python ints and floats produced by
json decoding and numeric coercion in this code base: the denoted value is
mant * 10 ^ exp10. Every numeric literal the adapter handles is an exact
decimal, so this representation is faithful; IEEE rounding, inf and nan are
never exercised by the code paths under study. -/
structure PyFloat where
  mant : Int
  exp10 : Int
deriving DecidableEq

/-- Python/JSON values as decoded from a model reply. -/
inductive Json where
  | null
  | bool (b : Bool)
  | num (f : PyFloat)
  | str (s : String)
  | arr (xs : List Json)
  | obj (kvs : List (String × Json))

/-- Python dict lookup over the association list of an object. json decoding
lets a later duplicate key overwrite an earlier one, so the lookup returns
the value of the last binding, matching dict semantics. -/
def lookupLast (kvs : List (String × Json)) (k : String) : Option Json :=
  kvs.foldl (fun acc kv => if kv.1 = k then some kv.2 else acc) none

/-- Python `key in dict`. A key bound to null is present. -/
def hasKey (kvs : List (String × Json)) (k : String) : Bool :=
  (lookupLast kvs k).isSome

/-- Python truthiness of a decoded json value. -/
def pyTruthy : Json → Bool
  | .null => false
  | .bool b => b
  | .num f => f.mant != 0
  | .str s => s != ""
  | .arr xs => !xs.isEmpty
  | .obj kvs => !kvs.isEmpty

/-- The test `value in (None, "")` used by `pick` and `_to_float`:
true exactly for None/null and the empty string. -/
def isNoneOrEmpty : Json → Bool
  | .null => true
  | .str s => s == ""
  | _ => false

/-- Whitespace for Python's str.strip and the regex class \s
(ASCII portion, which is all that reaches these code paths). -/
def isPySpace (c : Char) : Bool :=
  c == ' ' || c == '\t' || c == '\n' || c == '\r' || c == '\x0b' || c == '\x0c'

def digitsToInt (ds : List Char) : Int :=
  ds.foldl (fun acc c => acc * 10 + Int.ofNat (c.toNat - 48)) 0

def digitsToNat (ds : List Char) : Nat :=
  ds.foldl (fun acc c => acc * 10 + (c.toNat - 48)) 0

/-- Split off a maximal run of leading decimal digits. -/
def takeDigits : List Char → List Char × List Char
  | [] => ([], [])
  | c :: rest =>
    if c.isDigit then
      let p := takeDigits rest
      (c :: p.1, p.2)
    else ([], c :: rest)

/-- Model of the CPython float(str) literal grammar restricted to finite
decimals: optional surrounding whitespace, an optional sign, digits with an
optional fractional part, and an optional exponent. The special spellings
inf/infinity/nan and digit-group underscores are outside this model; no
claim touches them, and every string the spec exercises is covered. -/
def floatOfChars (cs0 : List Char) : Option PyFloat :=
  let cs1 := cs0.dropWhile isPySpace
  let cs2 := (cs1.reverse.dropWhile isPySpace).reverse
  let signed : Int × List Char :=
    match cs2 with
    | c :: rest =>
      if c == '-' then (-1, rest)
      else if c == '+' then (1, rest) else (1, c :: rest)
    | [] => (1, [])
  let sign := signed.1
  let ip := takeDigits signed.2
  let fp : List Char × List Char :=
    match ip.2 with
    | c :: rest => if c == '.' then takeDigits rest else ([], c :: rest)
    | [] => ([], [])
  if ip.1.isEmpty && fp.1.isEmpty then none
  else
    let mant := sign * digitsToInt (ip.1 ++ fp.1)
    let e0 : Int := -(Int.ofNat fp.1.length)
    match fp.2 with
    | [] => some ⟨mant, e0⟩
    | c :: rest =>
      if c == 'e' || c == 'E' then
        let esigned : Int × List Char :=
          match rest with
          | d :: r2 =>
            if d == '-' then (-1, r2)
            else if d == '+' then (1, r2) else (1, d :: r2)
          | [] => (1, [])
        let ep := takeDigits esigned.2
        if ep.1.isEmpty then none
        else if ep.2.isEmpty then some ⟨mant, e0 + esigned.1 * digitsToInt ep.1⟩
        else none
      else none

/-- The float(value) builtin applied to a decoded json value: numbers pass
through, bools convert as ints, strings go through the literal grammar
(ValueError on failure), and every other type raises TypeError; both
exceptions are modelled as the error outcome. -/
def float_builtin : Json → Except Unit PyFloat
  | .num f => .ok f
  | .bool b => .ok (if b then ⟨1, 0⟩ else ⟨0, 0⟩)
  | .str s =>
    match floatOfChars s.toList with
    | some f => .ok f
    | none => .error ()
  | _ => .error ()

/-- LLMAdapter._to_float (llm_adapter.py 197-204): a value equal to None or
the empty string coerces to 0.0; otherwise float(value) is attempted and
TypeError/ValueError are caught, also yielding 0.0. Total by construction,
mirroring the except clause of the source. -/
def to_float (v : Json) : PyFloat :=
  if isNoneOrEmpty v then ⟨0, 0⟩
  else
    match float_builtin v with
    | .ok f => f
    | .error _ => ⟨0, 0⟩

/-- Naive datetimes as the datetime class stores them. -/
structure PyDateTime where
  year : Nat
  month : Nat
  day : Nat
  hour : Nat
  minute : Nat
  second : Nat
  micro : Nat
deriving DecidableEq

def isLeapYear (y : Nat) : Bool :=
  (y % 4 == 0 && y % 100 != 0) || y % 400 == 0

def daysInMonth (y m : Nat) : Nat :=
  if m = 2 then (if isLeapYear y then 29 else 28)
  else if m = 4 ∨ m = 6 ∨ m = 9 ∨ m = 11 then 30
  else 31

/-- Read exactly two decimal digits. -/
def twoDigits : List Char → Option (Nat × List Char)
  | a :: b :: rest =>
    if a.isDigit && b.isDigit then
      some (10 * (a.toNat - 48) + (b.toNat - 48), rest)
    else none
  | _ => none

/-- Fractional seconds of fromisoformat: exactly three or six digits,
yielding microseconds. -/
def isoFraction (cs : List Char) : Option (Nat × List Char) :=
  let p := takeDigits cs
  if p.1.length = 3 then some (1000 * digitsToNat p.1, p.2)
  else if p.1.length = 6 then some (digitsToNat p.1, p.2)
  else none

/-- The time-of-day tail of fromisoformat: HH[:MM[:SS[.fff or .ffffff]]],
with the component ranges the time constructor enforces. Timezone offsets
are not modelled; no claim involves an offset-carrying string. -/
def isoTimeOfDay (cs : List Char) : Option (Nat × Nat × Nat × Nat) :=
  match twoDigits cs with
  | none => none
  | some (hh, rest) =>
    let tail : Option (Nat × Nat × Nat) :=
      match rest with
      | [] => some (0, 0, 0)
      | c :: rest2 =>
        if c == ':' then
          match twoDigits rest2 with
          | none => none
          | some (mm, rest3) =>
            match rest3 with
            | [] => some (mm, 0, 0)
            | c2 :: rest4 =>
              if c2 == ':' then
                match twoDigits rest4 with
                | none => none
                | some (ss, rest5) =>
                  match rest5 with
                  | [] => some (mm, ss, 0)
                  | c3 :: rest6 =>
                    if c3 == '.' then
                      match isoFraction rest6 with
                      | some (us, []) => some (mm, ss, us)
                      | _ => none
                    else none
              else none
        else none
    match tail with
    | some (mm, ss, us) =>
      if hh ≤ 23 ∧ mm ≤ 59 ∧ ss ≤ 59 then some (hh, mm, ss, us) else none
    | none => none

/-- Model of datetime.fromisoformat as the spec documents it (strict
ISO-8601): a YYYY-MM-DD date, optionally followed by a one-character
separator and a time of day, validated like the datetime constructor. -/
def fromisoformat (s : String) : Option PyDateTime :=
  match s.toList with
  | y1 :: y2 :: y3 :: y4 :: d1 :: rest =>
    if y1.isDigit && y2.isDigit && y3.isDigit && y4.isDigit && d1 == '-' then
      match twoDigits rest with
      | some (mo, rest2) =>
        match rest2 with
        | d2 :: rest3 =>
          if d2 == '-' then
            match twoDigits rest3 with
            | some (dy, rest4) =>
              let yr := 1000 * (y1.toNat - 48) + 100 * (y2.toNat - 48) +
                10 * (y3.toNat - 48) + (y4.toNat - 48)
              if 1 ≤ yr ∧ yr ≤ 9999 ∧ 1 ≤ mo ∧ mo ≤ 12 ∧ 1 ≤ dy ∧ dy ≤ daysInMonth yr mo then
                match rest4 with
                | [] => some ⟨yr, mo, dy, 0, 0, 0, 0⟩
                | _sep :: trest =>
                  match isoTimeOfDay trest with
                  | some (hh, mm, ss, us) => some ⟨yr, mo, dy, hh, mm, ss, us⟩
                  | none => none
              else none
            | none => none
          else none
        | [] => none
      | none => none
    else none
  | _ => none

/-- A value reaching the static _parse_datetime helper: absent (Python
None), a decoded json value, or an actual datetime instance. -/
inductive PyVal where
  | none
  | json (j : Json)
  | dt (d : PyDateTime)

def pyValTruthy : PyVal → Bool
  | .none => false
  | .json j => pyTruthy j
  | .dt _ => true

/-- str(value) for the json values that can reach _parse_datetime. Strings
pass through unchanged; the precise rendering of the other shapes is
irrelevant downstream because none of them is ISO-shaped (a container
rendering opens with a bracket or brace, a bool with a letter, a number
rendering never contains the two hyphens at the positions fromisoformat
requires), which the chosen renderings preserve. -/
def pyStr : Json → String
  | .str s => s
  | .num f => toString f.mant ++ (if f.exp10 == 0 then "" else "e" ++ toString f.exp10)
  | .bool b => if b then "True" else "False"
  | .arr _ => "[...]"
  | .obj _ => "\x7b...\x7d"
  | .null => "None"

/-- Python str.strip on both ends. -/
def stripEnds (s : String) : String :=
  let l := s.toList.dropWhile isPySpace
  String.mk (l.reverse.dropWhile isPySpace).reverse

/-- LLMAdapter._parse_datetime (llm_adapter.py 206-221): a falsy value gives
None; a datetime instance passes through (datetimes are always truthy);
otherwise str(value) is stripped and fed to fromisoformat, a ValueError
being caught to None. The source's len == 10 test selects between two
identical fromisoformat calls, so it does not affect the result. Total by
construction, mirroring the except clause. -/
def parse_datetime (value : PyVal) : Option PyDateTime :=
  if !pyValTruthy value then none
  else
    match value with
    | .dt d => some d
    | .json j =>
      let text := stripEnds (pyStr j)
      if text == "" then none else fromisoformat text
    | .none => none

/-- The inner pick helper of _normalize_payload (llm_adapter.py 145-150):
probe the record for each key in order; a missing key reads as None through
dict.get; the first value that is neither None nor the empty string wins;
otherwise the default. -/
def pick (record : List (String × Json)) : List String → Option Json → Option Json
  | [], dflt => dflt
  | k :: rest, dflt =>
    match lookupLast record k with
    | Option.some v => if isNoneOrEmpty v then pick record rest dflt else some v
    | Option.none => pick record rest dflt

/-- A Python `a or b or ... or dflt` chain over dict.get results, as used for
the line_text aliases: the first truthy value wins. -/
def firstTruthy (item : List (String × Json)) : List String → Json → Json
  | [], dflt => dflt
  | k :: rest, dflt =>
    match lookupLast item k with
    | Option.some v => if pyTruthy v then v else firstTruthy item rest dflt
    | Option.none => firstTruthy item rest dflt

/-- One numeric field of a line item (llm_adapter.py 191-193): _to_float is
applied only when the source value is present and neither None nor the
empty string; otherwise the field is None. -/
def itemNumField (item : List (String × Json)) (k : String) : Json :=
  match lookupLast item k with
  | Option.some v => if isNoneOrEmpty v then Json.null else Json.num (to_float v)
  | Option.none => Json.null

/-- The body of the loop of LLMAdapter._normalize_items (184-194): a string
entry becomes a text-only item, a dict entry is mapped onto the four
canonical keys, and any other entry is dropped. -/
def normalize_item_entry : Json → Option (List (String × Json))
  | .str s =>
    some [("line_text", Json.str s), ("quantity", Json.null),
      ("unit_price", Json.null), ("amount", Json.null)]
  | .obj item =>
    some [("line_text", firstTruthy item ["line_text", "description", "name"] (Json.str "")),
      ("quantity", itemNumField item "quantity"),
      ("unit_price", itemNumField item "unit_price"),
      ("amount", itemNumField item "amount")]
  | _ => Option.none

/-- LLMAdapter._normalize_items (llm_adapter.py 180-195): a non-list input
yields the empty list, a list is filtered and mapped entrywise. -/
def normalize_items : Json → List (List (String × Json))
  | .arr items => items.filterMap normalize_item_entry
  | _ => []

/-- The merchant block of _normalize_payload (line 160):
record.get("merchant", default empty dict) or empty dict. An absent or
falsy merchant value gives the empty dict; a truthy value passes through
whatever its shape (a truthy non-dict later raises at .get). -/
def merchant_block (record : List (String × Json)) : Json :=
  match lookupLast record "merchant" with
  | Option.some v => if pyTruthy v then v else Json.obj []
  | Option.none => Json.obj []

/-- The nested-block default of one merchant field:
merchant_block.get(k) or literal default, a truthiness chain. -/
def nestedDefault (mb : List (String × Json)) (k : String) (d : String) : Json :=
  match lookupLast mb k with
  | Option.some v => if pyTruthy v then v else Json.str d
  | Option.none => Json.str d

/-- The canonical merchant dict of _normalize_payload (161-166), given a
merchant block that is a dict: three alias-resolved fields, then
dict.update copies over every block entry whose key is not already present,
i.e. not one of name/abn/address. -/
def merchant_value (record mb : List (String × Json)) : List (String × Json) :=
  [("name", (pick record ["merchant_name", "shop_name"] (some (nestedDefault mb "name" "Unknown"))).getD Json.null),
   ("abn", (pick record ["merchant_abn", "shop_abn"] (some (nestedDefault mb "abn" ""))).getD Json.null),
   ("address", (pick record ["merchant_address", "shop_address"] (some (nestedDefault mb "address" ""))).getD Json.null)]
  ++ mb.filter (fun kv => kv.1 != "name" && kv.1 != "abn" && kv.1 != "address")

/-- The second and third link of the or-chain feeding _normalize_items
(line 168): record.get("line_items") or the empty list. -/
def items_fallback (record : List (String × Json)) : Json :=
  match lookupLast record "line_items" with
  | Option.some v => if pyTruthy v then v else Json.arr []
  | Option.none => Json.arr []

/-- The or-chain feeding _normalize_items (line 168):
record.get("items") or record.get("line_items") or []. The chain is by
truthiness, so a falsy items value (absent, null, empty list, empty string,
zero, false) falls through to line_items. -/
def items_source (record : List (String × Json)) : Json :=
  match lookupLast record "items" with
  | Option.some v => if pyTruthy v then v else items_fallback record
  | Option.none => items_fallback record

/-- uuid resolution (line 152): pick(["uuid"]) or str(uuid.uuid4()), the
fresh argument standing for the freshly generated random identifier, the
only non-deterministic input of normalization. -/
def uuid_value (fresh : String) (record : List (String × Json)) : Json :=
  match pick record ["uuid"] Option.none with
  | Option.some v => if pyTruthy v then v else Json.str fresh
  | Option.none => Json.str fresh

/-- total resolution (line 153):
_to_float(pick(["total", "amount", "grand_total"], default="0")). -/
def total_value (record : List (String × Json)) : PyFloat :=
  to_float ((pick record ["total", "amount", "grand_total"] (some (Json.str "0"))).getD Json.null)

/-- currency resolution (line 154): pick(["currency"], default="AUD") or
"AUD". -/
def currency_value (record : List (String × Json)) : Json :=
  match pick record ["currency"] (some (Json.str "AUD")) with
  | Option.some v => if pyTruthy v then v else Json.str "AUD"
  | Option.none => Json.str "AUD"

/-- category resolution (line 155): pick(["category", "receipt_category"])
or None. -/
def category_value (record : List (String × Json)) : Option Json :=
  match pick record ["category", "receipt_category"] Option.none with
  | Option.some v => if pyTruthy v then some v else Option.none
  | Option.none => Option.none

/-- purchased_at resolution (157-158): the raw pick result fed to
_parse_datetime, an exhausted chain passing Python None. -/
def purchased_value (record : List (String × Json)) : Option PyDateTime :=
  parse_datetime
    (match pick record ["purchased_at", "date_purchased", "purchase_date"] Option.none with
     | Option.some v => PyVal.json v
     | Option.none => PyVal.none)

/-- The record _normalize_payload works on (line 143): the value under the
receipt_data key when that key is present (even when bound to null),
otherwise the payload itself. -/
def record_of (payload : List (String × Json)) : Json :=
  if hasKey payload "receipt_data" then (lookupLast payload "receipt_data").getD Json.null
  else Json.obj payload

/-- The normalized dict returned by _normalize_payload, its seven fixed keys
as fields. parse_receipt copies these fields verbatim into ParseResult. -/
structure Normalized where
  uuid : Json
  total : PyFloat
  currency : Json
  purchased_at : Option PyDateTime
  category : Option Json
  merchant : List (String × Json)
  items : List (List (String × Json))

/-- LLMAdapter._normalize_payload (llm_adapter.py 142-178). The source
raises AttributeError when .get is invoked on a non-dict record (the
receipt_data wrapper was present but not an object), and when the merchant
block is truthy but not a dict (its .get is evaluated eagerly in the pick
defaults); both escapes are modelled as the none outcome. -/
def normalize_payload (fresh : String) (payload : List (String × Json)) : Option Normalized :=
  match record_of payload with
  | Json.obj record =>
    match merchant_block record with
    | Json.obj mb =>
      some
        { uuid := uuid_value fresh record
          total := total_value record
          currency := currency_value record
          purchased_at := purchased_value record
          category := category_value record
          merchant := merchant_value record mb
          items := normalize_items (items_source record) }
    | _ => Option.none
  | _ => Option.none

def cTick : Char := Char.ofNat 96

def cQuote : Char := Char.ofNat 34

def cLBrace : Char := Char.ofNat 123

def cRBrace : Char := Char.ofNat 125

/-- The whitespace json.loads skips between tokens. -/
def isJsonWs (c : Char) : Bool :=
  c == ' ' || c == '\t' || c == '\n' || c == '\r'

def hexDigitVal (c : Char) : Option Nat :=
  if c.isDigit then some (c.toNat - 48)
  else if 'a' ≤ c ∧ c ≤ 'f' then some (c.toNat - 87)
  else if 'A' ≤ c ∧ c ≤ 'F' then some (c.toNat - 55)
  else none

def escChar (c : Char) : Option Char :=
  if c == cQuote then some cQuote
  else if c == '\\' then some '\\'
  else if c == '/' then some '/'
  else if c == 'b' then some (Char.ofNat 8)
  else if c == 'f' then some (Char.ofNat 12)
  else if c == 'n' then some '\n'
  else if c == 'r' then some '\r'
  else if c == 't' then some '\t'
  else none

/-- Decode the body of a json string literal after its opening quote,
returning the decoded characters and the input after the closing quote.
Strict mode: raw control characters are rejected. -/
def jsonStrChars : List Char → Option (List Char × List Char)
  | [] => none
  | c :: rest =>
    if c == cQuote then some ([], rest)
    else if c == '\\' then
      match rest with
      | e :: rest2 =>
        if e == 'u' then
          match rest2 with
          | h1 :: h2 :: h3 :: h4 :: rest3 =>
            match hexDigitVal h1, hexDigitVal h2, hexDigitVal h3, hexDigitVal h4 with
            | some a, some b2, some c2, some d2 =>
              match jsonStrChars rest3 with
              | some (s, r) => some (Char.ofNat (4096 * a + 256 * b2 + 16 * c2 + d2) :: s, r)
              | none => none
            | _, _, _, _ => none
          | _ => none
        else
          match escChar e with
          | some ec =>
            match jsonStrChars rest2 with
            | some (s, r) => some (ec :: s, r)
            | none => none
          | none => none
      | [] => none
    else if c.toNat < 32 then none
    else
      match jsonStrChars rest with
      | some (s, r) => some (c :: s, r)
      | none => none

/-- Decode a json number literal (the json grammar: optional minus, an
integer part without leading zeros, optional fraction with at least one
digit, optional exponent with at least one digit). -/
def jsonNumber (cs : List Char) : Option (PyFloat × List Char) :=
  let s1 : Int × List Char :=
    match cs with
    | c :: rest => if c == '-' then (-1, rest) else (1, c :: rest)
    | [] => (1, [])
  let ip := takeDigits s1.2
  if ip.1.isEmpty then none
  else if ip.1.length > 1 && ip.1.headD '0' == '0' then none
  else
    let fp : Option (List Char × List Char) :=
      match ip.2 with
      | c :: rest =>
        if c == '.' then
          let p := takeDigits rest
          if p.1.isEmpty then none else some p
        else some ([], c :: rest)
      | [] => some ([], [])
    match fp with
    | none => none
    | some (fd, rest2) =>
      let mant := s1.1 * digitsToInt (ip.1 ++ fd)
      let e0 : Int := -(Int.ofNat fd.length)
      match rest2 with
      | [] => some (⟨mant, e0⟩, [])
      | c :: rest3 =>
        if c == 'e' || c == 'E' then
          let es : Int × List Char :=
            match rest3 with
            | d :: r2 =>
              if d == '-' then (-1, r2)
              else if d == '+' then (1, r2) else (1, d :: r2)
            | [] => (1, [])
          let ep := takeDigits es.2
          if ep.1.isEmpty then none
          else some (⟨mant, e0 + es.1 * digitsToInt ep.1⟩, ep.2)
        else some (⟨mant, e0⟩, c :: rest3)

mutual

/-- Decode one json value from the input, skipping leading whitespace, and
return the remaining input. Fuel bounds the recursion; every recursive
step consumes input, so the bound chosen by json_loads is never hit. -/
def json_value : Nat → List Char → Option (Json × List Char)
  | 0, _ => none
  | Nat.succ fuel, cs =>
    match cs.dropWhile isJsonWs with
    | [] => none
    | c :: rest =>
      if c == cQuote then
        match jsonStrChars rest with
        | some (sc, r) => some (Json.str (String.mk sc), r)
        | none => none
      else if c == cLBrace then
        match rest.dropWhile isJsonWs with
        | d :: r2 =>
          if d == cRBrace then some (Json.obj [], r2)
          else json_members fuel (d :: r2) []
        | [] => none
      else if c == '[' then
        match rest.dropWhile isJsonWs with
        | d :: r2 =>
          if d == ']' then some (Json.arr [], r2)
          else json_elements fuel (d :: r2) []
        | [] => none
      else if c == 't' then
        match rest with
        | 'r' :: 'u' :: 'e' :: r => some (Json.bool true, r)
        | _ => none
      else if c == 'f' then
        match rest with
        | 'a' :: 'l' :: 's' :: 'e' :: r => some (Json.bool false, r)
        | _ => none
      else if c == 'n' then
        match rest with
        | 'u' :: 'l' :: 'l' :: r => some (Json.null, r)
        | _ => none
      else
        match jsonNumber (c :: rest) with
        | some (f, r) => some (Json.num f, r)
        | none => none

/-- Decode the elements of a non-empty json array after its opening
bracket. -/
def json_elements : Nat → List Char → List Json → Option (Json × List Char)
  | 0, _, _ => none
  | Nat.succ fuel, cs, acc =>
    match json_value fuel cs with
    | some (v, r) =>
      match r.dropWhile isJsonWs with
      | c :: r2 =>
        if c == ',' then json_elements fuel r2 (v :: acc)
        else if c == ']' then some (Json.arr (v :: acc).reverse, r2)
        else none
      | [] => none
    | none => none

/-- Decode the members of a non-empty json object after its opening
brace. -/
def json_members : Nat → List Char → List (String × Json) → Option (Json × List Char)
  | 0, _, _ => none
  | Nat.succ fuel, cs, acc =>
    match cs.dropWhile isJsonWs with
    | c :: rest =>
      if c == cQuote then
        match jsonStrChars rest with
        | some (kc, r) =>
          match r.dropWhile isJsonWs with
          | d :: r2 =>
            if d == ':' then
              match json_value fuel r2 with
              | some (v, r3) =>
                match r3.dropWhile isJsonWs with
                | e :: r4 =>
                  if e == ',' then json_members fuel r4 ((String.mk kc, v) :: acc)
                  else if e == cRBrace then some (Json.obj ((String.mk kc, v) :: acc).reverse, r4)
                  else none
                | [] => none
              | none => none
            else none
          | [] => none
        | none => none
      else none
    | [] => none

end

/-- Model of json.loads: decode one json value, requiring only whitespace
around it; any failure, including trailing data, is the ValueError
json.JSONDecodeError, modelled as none. -/
def json_loads (s : String) : Option Json :=
  match json_value (2 * s.length + 4) s.toList with
  | some (v, rest) => if (rest.dropWhile isJsonWs).isEmpty then some v else none
  | none => none

/-- The input just after the first occurrence of three consecutive
backticks, when there is one. -/
def afterTicks : List Char → Option (List Char)
  | [] => Option.none
  | a :: t =>
    match t with
    | b :: c :: rest =>
      if a == cTick && b == cTick && c == cTick then some rest else afterTicks t
    | _ => Option.none

/-- The input strictly before the first occurrence of three consecutive
backticks, when there is one. -/
def beforeTicks : List Char → Option (List Char)
  | [] => Option.none
  | a :: t =>
    match t with
    | b :: c :: _rest =>
      if a == cTick && b == cTick && c == cTick then some []
      else
        match beforeTicks t with
        | some content => some (a :: content)
        | none => none
    | _ => Option.none

/-- The optional literal json tag of the fence pattern, consumed when it
immediately follows the opening backticks. -/
def dropJsonTag (cs : List Char) : List Char :=
  match cs with
  | a :: b :: c :: d :: rest =>
    if a == 'j' && b == 's' && c == 'o' && d == 'n' then rest else cs
  | _ => cs

/-- The regex search of _extract_json_payload (line 131), the pattern being
three backticks, an optional json tag, greedy whitespace, a lazy dotall
capture, whitespace, three backticks. The search resolves to: the text
after the first triple backtick, minus an immediate json tag and leading
whitespace, up to the next triple backtick, with trailing whitespace
stripped (the lazy capture plus greedy whitespace-before-close); no second
triple backtick means no match. -/
def extract_fence (s : String) : Option String :=
  match afterTicks s.toList with
  | Option.none => Option.none
  | Option.some rest =>
    let rest2 := (dropJsonTag rest).dropWhile isPySpace
    match beforeTicks rest2 with
    | Option.some content => some (String.mk (content.reverse.dropWhile isPySpace).reverse)
    | Option.none => Option.none

/-- The two classified failures of payload extraction (llm_adapter.py
136-139): the LLM response was not valid JSON, and the response JSON was
not an object. -/
inductive LLMAdapterErr where
  | invalidJSON
  | nonObjectPayload
deriving DecidableEq

/-- The decode stage of _extract_json_payload (133-140): json.loads on the
chosen raw text, a decode error raising invalid JSON, a decoded non-dict
raising the non-object error, a dict being returned. -/
def decode_payload (raw : String) : Except LLMAdapterErr (List (String × Json)) :=
  match json_loads raw with
  | Option.none => .error .invalidJSON
  | Option.some (Json.obj kvs) => .ok kvs
  | Option.some _ => .error .nonObjectPayload

/-- LLMAdapter._extract_json_payload (llm_adapter.py 130-140): the contents
of the first fenced block when the response has one, otherwise the whole
response, fed to the decode stage. -/
def extract_json_payload (llm_response : String) : Except LLMAdapterErr (List (String × Json)) :=
  decode_payload
    (match extract_fence llm_response with
     | Option.some c => c
     | Option.none => llm_response)

/-- The Job statuses of apps/receipts/models.py; get_or_create builds a job
with the default status PENDING. -/
inductive JobStatus where
  | PENDING
  | RUNNING
  | SUCCEEDED
  | FAILED
deriving DecidableEq

/-- The slice of the Job row that the ingest view touches: primary key,
unique idempotency key, status. -/
structure Job where
  id : Nat
  idem_key : String
  status : JobStatus
deriving DecidableEq

/-- The job table: rows in creation order plus the next primary key. The
unique constraint on idem_key is maintained by construction, get_or_create
being the only writer here. -/
structure Store where
  jobs : List Job
  nextId : Nat
deriving DecidableEq

/-- The response of the ingest view: an HTTP status code and the serialized
job when one is returned. -/
structure IngestResponse where
  httpStatus : Nat
  body : Option Job
deriving DecidableEq

/-- The effect of one POST to the ingest view: the updated table, the
response, and the executions scheduled through process_receipt_job.delay,
as (job id, image uri) pairs. -/
structure SubmitOutcome where
  store : Store
  resp : IngestResponse
  scheduled : List (Nat × String)
deriving DecidableEq

/-- The lookup half of Job.objects.get_or_create(idempotency_key=k). -/
def find_job (st : Store) (k : String) : Option Job :=
  st.jobs.find? (fun j => j.idem_key == k)

/-- IngestReceiptView.post (views.py 23-32). headerKey is the
Idempotency-Key header, randomKey the get_random_string(24) fallback value
(the header or-chain is by truthiness), imageUri the request body field
(none when missing; a missing or empty value answers 400 before any store
access). get_or_create inside the atomic transaction is modelled as
find-then-insert, which is exactly its sequential semantics; delay is
modelled by recording the scheduled call. -/
def ingest_post (st : Store) (headerKey : Option String) (randomKey : String)
    (imageUri : Option String) : SubmitOutcome :=
  let idem :=
    match headerKey with
    | Option.some k => if k == "" then randomKey else k
    | Option.none => randomKey
  match imageUri with
  | Option.none => ⟨st, ⟨400, Option.none⟩, []⟩
  | Option.some uri =>
    if uri == "" then ⟨st, ⟨400, Option.none⟩, []⟩
    else
      match find_job st idem with
      | Option.some job => ⟨st, ⟨200, some job⟩, []⟩
      | Option.none =>
        let job : Job := ⟨st.nextId, idem, JobStatus.PENDING⟩
        ⟨⟨st.jobs ++ [job], st.nextId + 1⟩, ⟨202, some job⟩, [(job.id, uri)]⟩

/-- A sequence of posts sharing one Idempotency-Key header, each with its
own random fallback and image uri; returns the final table and every
execution scheduled along the way. -/
def run_submits (st : Store) (headerKey : Option String) :
    List (String × Option String) → Store × List (Nat × String)
  | [] => (st, [])
  | call :: rest =>
    let o := ingest_post st headerKey call.1 call.2
    let p := run_submits o.store headerKey rest
    (p.1, o.scheduled ++ p.2)

/-- The record reads as absent at k through pick's test: the key is
missing, bound to null, or bound to the empty string (dict.get collapses
the first two to Python None). -/
def absent_or_blank (kvs : List (String × Json)) (k : String) : Bool :=
  match lookupLast kvs k with
  | Option.some v => isNoneOrEmpty v
  | Option.none => true

/-- The record reads as falsy at k: the key is missing or its value is
falsy; this is what an `or` chain over dict.get results tests. -/
def value_falsy (kvs : List (String × Json)) (k : String) : Bool :=
  match lookupLast kvs k with
  | Option.some v => !pyTruthy v
  | Option.none => true

def isArrJ : Json → Bool
  | .arr _ => true
  | _ => false

def isObjJ : Json → Bool
  | .obj _ => true
  | _ => false

def isStrOrObj : Json → Bool
  | .str _ => true
  | .obj _ => true
  | _ => false

/-- The uuid alias chain resolves to a truthy value on the payload's
record — what the spec presumes of a well-formed model reply, whose schema
always carries a uuid string. On a crashing record shape the normalizer
never reaches the uuid, so the flag is vacuously true there. -/
def uuid_present (payload : List (String × Json)) : Bool :=
  match record_of payload with
  | Json.obj r =>
    (match pick r ["uuid"] Option.none with
     | Option.some v => pyTruthy v
     | Option.none => false)
  | _ => true

/-- The receipt_data wrapper, when present, is an object, so the record the
normalizer works on supports .get. -/
def wrapper_ok (payload : List (String × Json)) : Bool :=
  match record_of payload with
  | Json.obj _ => true
  | _ => false

/-- The merchant block derived from the record is an object, so its .get
calls cannot raise. -/
def merchant_ok (payload : List (String × Json)) : Bool :=
  match record_of payload with
  | Json.obj r =>
    (match merchant_block r with
     | Json.obj _ => true
     | _ => false)
  | _ => false

/-- The merchant-name rule exactly as the claim states it: the first
non-null, non-empty value along merchant_name, then shop_name, then the
nested merchant-object name, defaulting to Unknown. Written from the
spec's words, for comparison against the source behaviour. -/
def spec_merchant_name (r : List (String × Json)) : Json :=
  match pick r ["merchant_name", "shop_name"] Option.none with
  | Option.some v => v
  | Option.none =>
    match merchant_block r with
    | Json.obj mb =>
      (match lookupLast mb "name" with
       | Option.some v => if isNoneOrEmpty v then Json.str "Unknown" else v
       | Option.none => Json.str "Unknown")
    | _ => Json.str "Unknown"

/-- The items-field rule exactly as the claim states it: read from items,
falling back to line_items only if items is absent; written from the
spec's words, for comparison against the source behaviour. -/
def spec_items_source (r : List (String × Json)) : Json :=
  match lookupLast r "items" with
  | Option.some v => v
  | Option.none =>
    match lookupLast r "line_items" with
    | Option.some v => v
    | Option.none => Json.arr []

/- ------------------------------------------------------------------ -/
/- Helper lemmas -/
/- ------------------------------------------------------------------ -/

theorem lookupLast_foldl (l : List (String × Json)) (k : String) (acc : Option Json) :
    l.foldl (fun a kv => if kv.1 = k then some kv.2 else a) acc = (lookupLast l k).or acc := by
  induction l generalizing acc with
  | nil => rfl
  | cons hd tl ih =>
    simp only [List.foldl_cons]
    rw [ih]
    have hcons : lookupLast (hd :: tl) k =
        (lookupLast tl k).or (if hd.1 = k then some hd.2 else none) := by
      simp only [lookupLast, List.foldl_cons]
      exact ih _
    rw [hcons]
    cases lookupLast tl k <;> by_cases hk : hd.1 = k <;> simp [hk, Option.or]

theorem lookupLast_cons (x : String × Json) (l : List (String × Json)) (k : String) :
    lookupLast (x :: l) k = (lookupLast l k).or (if x.1 = k then some x.2 else none) := by
  simp only [lookupLast, List.foldl_cons]
  exact lookupLast_foldl l k _

theorem lookupLast_append (l1 l2 : List (String × Json)) (k : String) :
    lookupLast (l1 ++ l2) k = (lookupLast l2 k).or (lookupLast l1 k) := by
  simp only [lookupLast, List.foldl_append]
  exact lookupLast_foldl l2 k _

theorem lookupLast_filter_keep (l : List (String × Json)) (p : String × Json → Bool)
    (k : String) (hp : ∀ v, p (k, v) = true) :
    lookupLast (l.filter p) k = lookupLast l k := by
  induction l with
  | nil => rfl
  | cons hd tl ih =>
    by_cases hpk : p hd = true
    · rw [List.filter_cons_of_pos hpk, lookupLast_cons, lookupLast_cons, ih]
    · rw [List.filter_cons_of_neg hpk, lookupLast_cons, ih]
      have hne : hd.1 ≠ k := by
        intro hEq
        apply hpk
        have h3 : p (k, hd.2) = true := hp hd.2
        rw [← hEq] at h3
        exact h3
      cases lookupLast tl k <;> simp [hne, Option.or]

theorem lookupLast_filter_drop (l : List (String × Json)) (p : String × Json → Bool)
    (k : String) (hp : ∀ v, p (k, v) = false) :
    lookupLast (l.filter p) k = none := by
  induction l with
  | nil => rfl
  | cons hd tl ih =>
    by_cases hpk : p hd = true
    · rw [List.filter_cons_of_pos hpk, lookupLast_cons, ih]
      have hne : hd.1 ≠ k := by
        intro hEq
        have h3 : p (k, hd.2) = false := hp hd.2
        rw [← hEq] at h3
        rw [hpk] at h3
        exact absurd h3 (by simp)
      simp [hne, Option.or]
    · rw [List.filter_cons_of_neg hpk, ih]

/- ------------------------------------------------------------------ -/
/- Claim theorems -/
/- ------------------------------------------------------------------ -/

/-- Claim C7: date coercion. The string 2024-03-01 normalizes to midnight
of that date; a non-ISO string normalizes to null; an absent, null or
empty value normalizes to null; a datetime value passes through unchanged;
and the coercion is a total function, mirroring the caught ValueError. -/
theorem parse_datetime_coercion :
    parse_datetime (PyVal.json (Json.str "2024-03-01")) = some ⟨2024, 3, 1, 0, 0, 0, 0⟩
    ∧ parse_datetime (PyVal.json (Json.str "not-a-date")) = Option.none
    ∧ parse_datetime PyVal.none = Option.none
    ∧ parse_datetime (PyVal.json Json.null) = Option.none
    ∧ parse_datetime (PyVal.json (Json.str "")) = Option.none
    ∧ (∀ d : PyDateTime, parse_datetime (PyVal.dt d) = some d) :=
  ⟨rfl, rfl, rfl, rfl, rfl, fun _ => rfl⟩

/-- Claim C8: payload extraction. When the response has a fenced block, its
contents are decoded; otherwise the whole response is; decoding fails with
invalid JSON exactly when json parsing fails, with the non-object error
exactly when the parsed value is not an object, and returns the object
otherwise; and the fenced and bare replies around the same object decode
identically, as the two concrete replies of the spec show. -/
theorem extract_payload_correct :
    (∀ t c, extract_fence t = some c → extract_json_payload t = decode_payload c)
    ∧ (∀ t, extract_fence t = Option.none → extract_json_payload t = decode_payload t)
    ∧ (∀ raw, decode_payload raw = .error .invalidJSON ↔ json_loads raw = Option.none)
    ∧ (∀ raw kvs, decode_payload raw = .ok kvs ↔ json_loads raw = some (Json.obj kvs))
    ∧ (∀ raw v, json_loads raw = some v → isObjJ v = false →
        decode_payload raw = .error .nonObjectPayload)
    ∧ extract_json_payload "```json\n\x7b\"total\": 5\x7d\n```" = .ok [("total", Json.num ⟨5, 0⟩)]
    ∧ extract_json_payload "\x7b\"total\": 5\x7d" = .ok [("total", Json.num ⟨5, 0⟩)]
    ∧ extract_json_payload "not json at all" = .error .invalidJSON := by
  refine ⟨?_, ?_, ?_, ?_, ?_, rfl, rfl, rfl⟩
  · intro t c h
    unfold extract_json_payload
    rw [h]
  · intro t h
    unfold extract_json_payload
    rw [h]
  · intro raw
    unfold decode_payload
    cases h : json_loads raw with
    | none => simp
    | some v => cases v <;> simp
  · intro raw kvs
    unfold decode_payload
    cases h : json_loads raw with
    | none => simp
    | some v => cases v <;> simp
  · intro raw v h hobj
    unfold decode_payload
    rw [h]
    cases v <;> simp_all [isObjJ]

/-- Witness for C8: the fenced-reply clause applied at the spec's concrete
fenced reply. -/
theorem extract_payload_correct_witness :
    extract_fence "```json\n\x7b\"total\": 5\x7d\n```" = some "\x7b\"total\": 5\x7d"
    ∧ extract_json_payload "```json\n\x7b\"total\": 5\x7d\n```" =
        decode_payload "\x7b\"total\": 5\x7d" :=
  ⟨rfl, extract_payload_correct.1 _ _ rfl⟩

theorem pick_cons (r : List (String × Json)) (k : String) (ks : List String)
    (dflt : Option Json) :
    pick r (k :: ks) dflt =
      match lookupLast r k with
      | Option.some v => if isNoneOrEmpty v then pick r ks dflt else some v
      | Option.none => pick r ks dflt := rfl

theorem pick_nil (r : List (String × Json)) (dflt : Option Json) :
    pick r [] dflt = dflt := rfl

/-- Claim C4: each numeric line-item field is resolved independently by the
asymmetric rule — absent, null or empty-string source values give null,
while a present value is coerced, a present-but-unparseable one (such as
12.50abc) coercing to 0.0; the coercion function is total, the modelled
float exceptions being caught to 0.0. -/
theorem item_numeric_asymmetry (item : List (String × Json)) (k : String)
    (hk : k = "quantity" ∨ k = "unit_price" ∨ k = "amount") :
    (∃ it, normalize_item_entry (Json.obj item) = some it ∧
      lookupLast it k = some (itemNumField item k))
    ∧ (absent_or_blank item k = true → itemNumField item k = Json.null)
    ∧ (∀ v, lookupLast item k = some v → isNoneOrEmpty v = false →
        itemNumField item k = Json.num (to_float v))
    ∧ (∀ v, isNoneOrEmpty v = false → float_builtin v = Except.error () → to_float v = ⟨0, 0⟩)
    ∧ to_float (Json.str "12.50abc") = ⟨0, 0⟩ := by
  refine ⟨?_, ?_, ?_, ?_, rfl⟩
  · refine ⟨_, rfl, ?_⟩
    rcases hk with h | h | h <;> subst h <;>
      simp [normalize_item_entry, lookupLast_cons, lookupLast, Option.or]
  · intro h
    unfold absent_or_blank at h
    unfold itemNumField
    cases hl : lookupLast item k with
    | none => rfl
    | some v => rw [hl] at h; simp at h; simp [h]
  · intro v hv hne
    unfold itemNumField
    rw [hv]
    simp [hne]
  · intro v hne herr
    unfold to_float
    rw [herr]
    simp [hne]

/-- Witness for C4: a present-but-unparseable quantity coerces to 0.0 and
an absent amount stays null, at concrete items. -/
theorem item_numeric_asymmetry_witness :
    itemNumField [("quantity", Json.str "12.50abc")] "quantity" = Json.num ⟨0, 0⟩
    ∧ itemNumField [("quantity", Json.str "12.50abc")] "amount" = Json.null := by
  constructor
  · have h := (item_numeric_asymmetry [("quantity", Json.str "12.50abc")] "quantity"
      (Or.inl rfl)).2.2.1 (Json.str "12.50abc") rfl rfl
    rw [h]
    rfl
  · exact (item_numeric_asymmetry [("quantity", Json.str "12.50abc")] "amount"
      (Or.inr (Or.inr rfl))).2.1 rfl

/-- Claim C5: the canonical total follows the first-match alias chain
total, amount, grand_total with non-null, non-empty values winning; with
all three absent or blank it coerces to 0.0 through the default
numeric-string. -/
theorem total_alias_precedence (r : List (String × Json)) :
    (∀ v, lookupLast r "total" = some v → isNoneOrEmpty v = false →
       total_value r = to_float v)
    ∧ (absent_or_blank r "total" = true →
       ∀ v, lookupLast r "amount" = some v → isNoneOrEmpty v = false →
         total_value r = to_float v)
    ∧ (absent_or_blank r "total" = true → absent_or_blank r "amount" = true →
       absent_or_blank r "grand_total" = true → total_value r = ⟨0, 0⟩) := by
  refine ⟨?_, ?_, ?_⟩
  · intro v hv hne
    unfold total_value
    rw [pick_cons, hv]
    simp [hne]
  · intro ht v hv hne
    unfold absent_or_blank at ht
    unfold total_value
    rw [pick_cons]
    cases hlt : lookupLast r "total" with
    | none => rw [pick_cons, hv]; simp [hne]
    | some w =>
      rw [hlt] at ht
      simp at ht
      simp only [ht, if_true]
      rw [pick_cons, hv]
      simp [hne]
  · intro h1 h2 h3
    unfold absent_or_blank at h1 h2 h3
    unfold total_value
    rw [pick_cons]
    cases hl1 : lookupLast r "total" with
    | some w =>
      rw [hl1] at h1; simp at h1; simp only [h1, if_true]
      rw [pick_cons]
      cases hl2 : lookupLast r "amount" with
      | some w2 =>
        rw [hl2] at h2; simp at h2; simp only [h2, if_true]
        rw [pick_cons]
        cases hl3 : lookupLast r "grand_total" with
        | some w3 => rw [hl3] at h3; simp at h3; simp only [h3, if_true]; rfl
        | none => rfl
      | none =>
        rw [pick_cons]
        cases hl3 : lookupLast r "grand_total" with
        | some w3 => rw [hl3] at h3; simp at h3; simp only [h3, if_true]; rfl
        | none => rfl
    | none =>
      rw [pick_cons]
      cases hl2 : lookupLast r "amount" with
      | some w2 =>
        rw [hl2] at h2; simp at h2; simp only [h2, if_true]
        rw [pick_cons]
        cases hl3 : lookupLast r "grand_total" with
        | some w3 => rw [hl3] at h3; simp at h3; simp only [h3, if_true]; rfl
        | none => rfl
      | none =>
        rw [pick_cons]
        cases hl3 : lookupLast r "grand_total" with
        | some w3 => rw [hl3] at h3; simp at h3; simp only [h3, if_true]; rfl
        | none => rfl

/-- Witness for C5: the three alias situations at concrete records. -/
theorem total_alias_precedence_witness :
    total_value [("total", Json.num ⟨7, 0⟩), ("amount", Json.num ⟨3, 0⟩)] = ⟨7, 0⟩
    ∧ total_value [("amount", Json.num ⟨3, 0⟩)] = ⟨3, 0⟩
    ∧ total_value [("note", Json.str "x")] = ⟨0, 0⟩ :=
  ⟨(total_alias_precedence [("total", Json.num ⟨7, 0⟩), ("amount", Json.num ⟨3, 0⟩)]).1
     (Json.num ⟨7, 0⟩) rfl rfl,
   (total_alias_precedence [("amount", Json.num ⟨3, 0⟩)]).2.1 rfl (Json.num ⟨3, 0⟩) rfl rfl,
   (total_alias_precedence [("note", Json.str "x")]).2.2 rfl rfl rfl⟩

/-- Claim C2: normalization is deterministic. The only non-deterministic
input of _normalize_payload is the freshly generated uuid, consulted only
when the record's uuid chain is not truthy; a payload whose record carries
a truthy uuid (which every well-formed model reply does, its schema
declaring a uuid string) normalizes to the same result on every run,
whatever identifiers the two runs would have generated. -/
theorem normalize_deterministic (payload : List (String × Json)) (f1 f2 : String)
    (h : uuid_present payload = true) :
    normalize_payload f1 payload = normalize_payload f2 payload := by
  have h2 := h
  unfold uuid_present at h2
  cases hrec : record_of payload with
  | obj r =>
    rw [hrec] at h2
    simp only [] at h2
    cases hmb : merchant_block r with
    | obj mb =>
      simp only [normalize_payload, hrec, hmb, Option.some.injEq, Normalized.mk.injEq,
        and_true, true_and, and_self]
      unfold uuid_value
      cases hp : pick r ["uuid"] Option.none with
      | some v =>
        rw [hp] at h2
        simp only [] at h2
        simp [h2]
      | none => rw [hp] at h2; simp at h2
    | null => simp [normalize_payload, hrec, hmb]
    | bool b => simp [normalize_payload, hrec, hmb]
    | num f => simp [normalize_payload, hrec, hmb]
    | str s => simp [normalize_payload, hrec, hmb]
    | arr xs => simp [normalize_payload, hrec, hmb]
  | null => simp [normalize_payload, hrec]
  | bool b => simp [normalize_payload, hrec]
  | num f => simp [normalize_payload, hrec]
  | str s => simp [normalize_payload, hrec]
  | arr xs => simp [normalize_payload, hrec]

/-- Witness for C2: a payload with a uuid string normalizes identically
under two different fresh identifiers. -/
theorem normalize_deterministic_witness :
    uuid_present [("uuid", Json.str "u1")] = true
    ∧ normalize_payload "A" [("uuid", Json.str "u1")] =
        normalize_payload "B" [("uuid", Json.str "u1")] :=
  ⟨rfl, normalize_deterministic [("uuid", Json.str "u1")] "A" "B" rfl⟩

/-- Claim C3 counterexample: the claim says every successfully-parsed
object payload normalizes without raising, naming a null receipt_data
wrapper and a non-object merchant value as absorbed defects; but the
source calls .get on the unwrapped record and on a truthy merchant block,
so both payloads raise AttributeError (the none outcome here) instead of
returning a ParseResult. -/
theorem normalize_raises_cex :
    normalize_payload "u" [("receipt_data", Json.null)] = Option.none
    ∧ normalize_payload "u" [("merchant", Json.str "Coles")] = Option.none :=
  ⟨rfl, rfl⟩

/-- Claim C3 as amended: for every parsed object payload whose
receipt_data wrapper (when present) is an object and whose merchant value
(when present and truthy) is an object, normalization totally succeeds;
all remaining field-level defects are absorbed by the default/coercion
rules, never raising. -/
theorem normalize_succeeds_on_wellshaped (fresh : String) (payload : List (String × Json))
    (hw : wrapper_ok payload = true) (hm : merchant_ok payload = true) :
    (normalize_payload fresh payload).isSome = true := by
  unfold wrapper_ok at hw
  unfold merchant_ok at hm
  cases hrec : record_of payload with
  | obj r =>
    rw [hrec] at hm
    simp only [] at hm
    cases hmb : merchant_block r with
    | obj mb => simp [normalize_payload, hrec, hmb]
    | null => rw [hmb] at hm; simp at hm
    | bool b => rw [hmb] at hm; simp at hm
    | num f => rw [hmb] at hm; simp at hm
    | str s => rw [hmb] at hm; simp at hm
    | arr xs => rw [hmb] at hm; simp at hm
  | null => rw [hrec] at hw; simp at hw
  | bool b => rw [hrec] at hw; simp at hw
  | num f => rw [hrec] at hw; simp at hw
  | str s => rw [hrec] at hw; simp at hw
  | arr xs => rw [hrec] at hw; simp at hw

/-- Witness for the amended C3: a defect-ridden but well-shaped payload
(malformed number, malformed date, absent keys) normalizes successfully. -/
theorem normalize_succeeds_on_wellshaped_witness :
    wrapper_ok [("total", Json.str "oops"), ("purchased_at", Json.str "not-a-date")] = true
    ∧ merchant_ok [("total", Json.str "oops"), ("purchased_at", Json.str "not-a-date")] = true
    ∧ (normalize_payload "u"
        [("total", Json.str "oops"), ("purchased_at", Json.str "not-a-date")]).isSome = true :=
  ⟨rfl, rfl,
   normalize_succeeds_on_wellshaped "u"
     [("total", Json.str "oops"), ("purchased_at", Json.str "not-a-date")] rfl rfl⟩

theorem pick_default (r : List (String × Json)) (ks : List String) (dflt : Option Json) :
    pick r ks dflt = (pick r ks Option.none).or dflt := by
  induction ks with
  | nil => rfl
  | cons k ks ih =>
    rw [pick_cons, pick_cons]
    cases lookupLast r k with
    | none => exact ih
    | some v =>
      by_cases hv : isNoneOrEmpty v = true
      · simp only [hv, if_true]; exact ih
      · simp only [hv, if_false]; rfl

/-- Claim C6 counterexample: the claim says line_items is consulted only if
items is absent and that a non-list items value gives the empty sequence;
but the source or-chain tests truthiness, so a present-but-falsy items
value (here the empty list) falls through to line_items and yields a
non-empty normalized sequence where the claim's own rule (spelled out as
spec_items_source) yields none. -/
theorem items_fallback_cex :
    items_source [("items", Json.arr []), ("line_items", Json.arr [Json.str "x"])] =
      Json.arr [Json.str "x"]
    ∧ spec_items_source [("items", Json.arr []), ("line_items", Json.arr [Json.str "x"])] =
      Json.arr []
    ∧ normalize_items
        (items_source [("items", Json.arr []), ("line_items", Json.arr [Json.str "x"])]) =
      [[("line_text", Json.str "x"), ("quantity", Json.null),
        ("unit_price", Json.null), ("amount", Json.null)]]
    ∧ normalize_items
        (spec_items_source [("items", Json.arr []), ("line_items", Json.arr [Json.str "x"])]) =
      [] :=
  ⟨rfl, rfl, rfl, rfl⟩

/-- Claim C6 as amended: the items source is chosen by truthiness — the
items value when truthy, else the line_items value when truthy, else the
empty list (so a present-but-falsy items value falls through); a truthy
non-list source normalizes to the empty sequence; a bare-string entry
becomes a text-only item with null numeric fields; an entry that is
neither a string nor an object is dropped; and the list case maps
entrywise. -/
theorem items_resolution (r : List (String × Json)) :
    (∀ v, lookupLast r "items" = some v → pyTruthy v = true → items_source r = v)
    ∧ (value_falsy r "items" = true →
       ∀ w, lookupLast r "line_items" = some w → pyTruthy w = true → items_source r = w)
    ∧ (value_falsy r "items" = true → value_falsy r "line_items" = true →
       items_source r = Json.arr [])
    ∧ (∀ v, isArrJ v = false → normalize_items v = [])
    ∧ (∀ s, normalize_item_entry (Json.str s) =
        some [("line_text", Json.str s), ("quantity", Json.null),
          ("unit_price", Json.null), ("amount", Json.null)])
    ∧ (∀ v, isStrOrObj v = false → normalize_item_entry v = Option.none)
    ∧ (∀ l, normalize_items (Json.arr l) = l.filterMap normalize_item_entry) := by
  refine ⟨?_, ?_, ?_, ?_, fun s => rfl, ?_, fun l => rfl⟩
  · intro v hv htr
    unfold items_source
    rw [hv]
    simp [htr]
  · intro hf w hw htr
    unfold value_falsy at hf
    unfold items_source
    cases hl : lookupLast r "items" with
    | none => unfold items_fallback; rw [hw]; simp [htr]
    | some u =>
      rw [hl] at hf
      simp at hf
      simp only [hf, Bool.false_eq_true, if_false]
      unfold items_fallback
      rw [hw]
      simp [htr]
  · intro hf1 hf2
    unfold value_falsy at hf1 hf2
    unfold items_source
    cases hl : lookupLast r "items" with
    | none =>
      unfold items_fallback
      cases hl2 : lookupLast r "line_items" with
      | none => rfl
      | some u => rw [hl2] at hf2; simp at hf2; simp [hf2]
    | some u =>
      rw [hl] at hf1
      simp at hf1
      simp only [hf1, Bool.false_eq_true, if_false]
      unfold items_fallback
      cases hl2 : lookupLast r "line_items" with
      | none => rfl
      | some u2 => rw [hl2] at hf2; simp at hf2; simp [hf2]
  · intro v hv
    cases v <;> first
      | rfl
      | simp [isArrJ] at hv
  · intro v hv
    cases v <;> first
      | rfl
      | simp [isStrOrObj] at hv

/-- Witness for the amended C6: the three source situations and a truthy
non-list items value, at concrete records. -/
theorem items_resolution_witness :
    items_source [("items", Json.arr [Json.str "a"])] = Json.arr [Json.str "a"]
    ∧ items_source [("items", Json.null), ("line_items", Json.arr [Json.str "b"])] =
        Json.arr [Json.str "b"]
    ∧ items_source [("x", Json.null)] = Json.arr []
    ∧ normalize_items (Json.str "notalist") = [] :=
  ⟨(items_resolution [("items", Json.arr [Json.str "a"])]).1 (Json.arr [Json.str "a"]) rfl rfl,
   (items_resolution [("items", Json.null), ("line_items", Json.arr [Json.str "b"])]).2.1
     rfl (Json.arr [Json.str "b"]) rfl rfl,
   (items_resolution [("x", Json.null)]).2.2.1 rfl rfl,
   (items_resolution []).2.2.2.1 (Json.str "notalist") rfl⟩

/-- Claim C10: every normalized line item carries exactly the four
canonical keys, in order, whatever the input value was. -/
theorem item_shape (v : Json) (it : List (String × Json)) (h : it ∈ normalize_items v) :
    it.map Prod.fst = ["line_text", "quantity", "unit_price", "amount"] := by
  cases v with
  | arr l =>
    simp only [normalize_items] at h
    rcases List.mem_filterMap.mp h with ⟨a, _ha, hsome⟩
    cases a with
    | str s =>
      simp only [normalize_item_entry, Option.some.injEq] at hsome
      rw [← hsome]
      rfl
    | obj item =>
      simp only [normalize_item_entry, Option.some.injEq] at hsome
      rw [← hsome]
      rfl
    | null => simp [normalize_item_entry] at hsome
    | bool b => simp [normalize_item_entry] at hsome
    | num f => simp [normalize_item_entry] at hsome
    | arr xs => simp [normalize_item_entry] at hsome
  | null => simp [normalize_items] at h
  | bool b => simp [normalize_items] at h
  | num f => simp [normalize_items] at h
  | str s => simp [normalize_items] at h
  | obj kvs => simp [normalize_items] at h

/-- Witness for C10: the shape fact at a concrete normalized item. -/
theorem item_shape_witness :
    ([("line_text", Json.str "x"), ("quantity", Json.null),
      ("unit_price", Json.null), ("amount", Json.null)] : List (String × Json)).map Prod.fst =
      ["line_text", "quantity", "unit_price", "amount"] := by
  have he : normalize_items (Json.arr [Json.str "x"]) =
      [[("line_text", Json.str "x"), ("quantity", Json.null),
        ("unit_price", Json.null), ("amount", Json.null)]] := rfl
  have hm : [("line_text", Json.str "x"), ("quantity", Json.null),
      ("unit_price", Json.null), ("amount", Json.null)] ∈
      normalize_items (Json.arr [Json.str "x"]) := by
    rw [he]
    exact List.mem_singleton.mpr rfl
  exact item_shape (Json.arr [Json.str "x"]) _ hm

/-- Claim C9 counterexample: the claim says the canonical merchant name is
the first non-empty, non-null value along merchant_name, shop_name, nested
name; a nested name of 0 is non-null and non-empty, so the claim's own rule
(spec_merchant_name) selects it — but the source's nested fallback runs
through a truthiness or-chain, so the code yields Unknown instead. -/
theorem merchant_nested_truthiness_cex :
    (normalize_payload "u" [("merchant", Json.obj [("name", Json.num ⟨0, 0⟩)])]).map
        (fun n => lookupLast n.merchant "name") = some (some (Json.str "Unknown"))
    ∧ spec_merchant_name [("merchant", Json.obj [("name", Json.num ⟨0, 0⟩)])] =
        Json.num ⟨0, 0⟩
    ∧ Json.str "Unknown" ≠ Json.num ⟨0, 0⟩ :=
  ⟨rfl, rfl, fun hcontra => Json.noConfusion hcontra⟩

/-- Claim C9 as amended: with a merchant block that is an object, each
canonical merchant field is the record alias-chain value when that chain
yields a non-null, non-empty value; otherwise the nested block value when
that is truthy, otherwise the literal default (Unknown for the name, the
empty string for abn and address); and every nested key other than
name/abn/address is copied through unchanged. -/
theorem merchant_resolution (r mb : List (String × Json))
    (_h : merchant_block r = Json.obj mb) :
    (∀ v, pick r ["merchant_name", "shop_name"] Option.none = some v →
       lookupLast (merchant_value r mb) "name" = some v)
    ∧ (pick r ["merchant_name", "shop_name"] Option.none = Option.none →
       ∀ v, lookupLast mb "name" = some v → pyTruthy v = true →
         lookupLast (merchant_value r mb) "name" = some v)
    ∧ (pick r ["merchant_name", "shop_name"] Option.none = Option.none →
       value_falsy mb "name" = true →
         lookupLast (merchant_value r mb) "name" = some (Json.str "Unknown"))
    ∧ (∀ v, pick r ["merchant_abn", "shop_abn"] Option.none = some v →
       lookupLast (merchant_value r mb) "abn" = some v)
    ∧ (pick r ["merchant_abn", "shop_abn"] Option.none = Option.none →
       value_falsy mb "abn" = true →
         lookupLast (merchant_value r mb) "abn" = some (Json.str ""))
    ∧ (∀ v, pick r ["merchant_address", "shop_address"] Option.none = some v →
       lookupLast (merchant_value r mb) "address" = some v)
    ∧ (pick r ["merchant_address", "shop_address"] Option.none = Option.none →
       value_falsy mb "address" = true →
         lookupLast (merchant_value r mb) "address" = some (Json.str ""))
    ∧ (∀ k, k ≠ "name" → k ≠ "abn" → k ≠ "address" →
       lookupLast (merchant_value r mb) k = lookupLast mb k) := by
  have hname : lookupLast (merchant_value r mb) "name" =
      some ((pick r ["merchant_name", "shop_name"]
        (some (nestedDefault mb "name" "Unknown"))).getD Json.null) := by
    unfold merchant_value
    rw [lookupLast_append, lookupLast_filter_drop _ _ _ (fun v => rfl)]
    rfl
  have habn : lookupLast (merchant_value r mb) "abn" =
      some ((pick r ["merchant_abn", "shop_abn"]
        (some (nestedDefault mb "abn" ""))).getD Json.null) := by
    unfold merchant_value
    rw [lookupLast_append, lookupLast_filter_drop _ _ _ (fun v => rfl)]
    rfl
  have haddr : lookupLast (merchant_value r mb) "address" =
      some ((pick r ["merchant_address", "shop_address"]
        (some (nestedDefault mb "address" ""))).getD Json.null) := by
    unfold merchant_value
    rw [lookupLast_append, lookupLast_filter_drop _ _ _ (fun v => rfl)]
    rfl
  refine ⟨?_, ?_, ?_, ?_, ?_, ?_, ?_, ?_⟩
  · intro v hv
    rw [hname, pick_default, hv]
    rfl
  · intro hnone v hv htr
    rw [hname, pick_default, hnone]
    show some (nestedDefault mb "name" "Unknown") = some v
    unfold nestedDefault
    rw [hv]
    simp [htr]
  · intro hnone hf
    unfold value_falsy at hf
    rw [hname, pick_default, hnone]
    show some (nestedDefault mb "name" "Unknown") = some (Json.str "Unknown")
    unfold nestedDefault
    cases hl : lookupLast mb "name" with
    | none => rfl
    | some u => rw [hl] at hf; simp at hf; simp [hf]
  · intro v hv
    rw [habn, pick_default, hv]
    rfl
  · intro hnone hf
    unfold value_falsy at hf
    rw [habn, pick_default, hnone]
    show some (nestedDefault mb "abn" "") = some (Json.str "")
    unfold nestedDefault
    cases hl : lookupLast mb "abn" with
    | none => rfl
    | some u => rw [hl] at hf; simp at hf; simp [hf]
  · intro v hv
    rw [haddr, pick_default, hv]
    rfl
  · intro hnone hf
    unfold value_falsy at hf
    rw [haddr, pick_default, hnone]
    show some (nestedDefault mb "address" "") = some (Json.str "")
    unfold nestedDefault
    cases hl : lookupLast mb "address" with
    | none => rfl
    | some u => rw [hl] at hf; simp at hf; simp [hf]
  · intro k h1 h2 h3
    unfold merchant_value
    rw [lookupLast_append, lookupLast_filter_keep]
    · have hL3 : lookupLast
          [("name", (pick r ["merchant_name", "shop_name"]
             (some (nestedDefault mb "name" "Unknown"))).getD Json.null),
           ("abn", (pick r ["merchant_abn", "shop_abn"]
             (some (nestedDefault mb "abn" ""))).getD Json.null),
           ("address", (pick r ["merchant_address", "shop_address"]
             (some (nestedDefault mb "address" ""))).getD Json.null)] k = none := by
        rw [lookupLast_cons, lookupLast_cons, lookupLast_cons]
        simp [Ne.symm h1, Ne.symm h2, Ne.symm h3, lookupLast]
      rw [hL3]
      cases lookupLast mb k <;> rfl
    · intro v
      simp [bne_iff_ne, h1, h2, h3]

/-- Witness for the amended C9: the Unknown default and the copy-through
clause at a concrete record with a nested merchant block. -/
theorem merchant_resolution_witness :
    lookupLast (merchant_value
      [("merchant", Json.obj [("abn", Json.str "12"), ("extra", Json.bool true)])]
      [("abn", Json.str "12"), ("extra", Json.bool true)]) "name" = some (Json.str "Unknown")
    ∧ lookupLast (merchant_value
        [("merchant", Json.obj [("abn", Json.str "12"), ("extra", Json.bool true)])]
        [("abn", Json.str "12"), ("extra", Json.bool true)]) "extra" =
      lookupLast [("abn", Json.str "12"), ("extra", Json.bool true)] "extra" :=
  ⟨(merchant_resolution
      [("merchant", Json.obj [("abn", Json.str "12"), ("extra", Json.bool true)])]
      [("abn", Json.str "12"), ("extra", Json.bool true)] rfl).2.2.1 rfl rfl,
   (merchant_resolution
      [("merchant", Json.obj [("abn", Json.str "12"), ("extra", Json.bool true)])]
      [("abn", Json.str "12"), ("extra", Json.bool true)] rfl).2.2.2.2.2.2.2 "extra"
     (by decide) (by decide) (by decide)⟩

theorem run_submits_cons (st : Store) (hk : Option String) (c : String × Option String)
    (rest : List (String × Option String)) :
    run_submits st hk (c :: rest) =
      ((run_submits (ingest_post st hk c.1 c.2).store hk rest).1,
       (ingest_post st hk c.1 c.2).scheduled ++
         (run_submits (ingest_post st hk c.1 c.2).store hk rest).2) := rfl

theorem find_job_insert (st : Store) (k : String) (nid m : Nat) (s : JobStatus)
    (h : find_job st k = none) :
    find_job ⟨st.jobs ++ [⟨nid, k, s⟩], m⟩ k = some ⟨nid, k, s⟩ := by
  unfold find_job at *
  rw [List.find?_append, h]
  simp

theorem run_submits_existing (k : String) (hk : k ≠ "")
    (calls : List (String × Option String)) :
    ∀ (st : Store) (j : Job), find_job st k = some j →
      run_submits st (some k) calls = (st, []) := by
  induction calls with
  | nil => intro st j hj; rfl
  | cons c rest ih =>
    intro st j hj
    have hbe : (k == "") = false := by simp [hk]
    rw [run_submits_cons]
    cases hc : c.2 with
    | none =>
      have ho : ingest_post st (some k) c.1 Option.none = ⟨st, ⟨400, Option.none⟩, []⟩ := by
        simp [ingest_post]
      rw [ho]
      dsimp only
      rw [ih st j hj]; rfl
    | some u =>
      by_cases hu : u = ""
      · have ho : ingest_post st (some k) c.1 (some u) = ⟨st, ⟨400, Option.none⟩, []⟩ := by
          simp [ingest_post, hu]
        rw [ho]
        dsimp only
        rw [ih st j hj]; rfl
      · have hbu : (u == "") = false := by simp [hu]
        have ho : ingest_post st (some k) c.1 (some u) = ⟨st, ⟨200, some j⟩, []⟩ := by
          simp [ingest_post, hbe, hbu, hj]
        rw [ho]
        dsimp only
        rw [ih st j hj]; rfl

theorem sched_le_one (k : String) (hk : k ≠ "") (calls : List (String × Option String)) :
    ∀ st : Store, ((run_submits st (some k) calls).2).length ≤ 1 := by
  induction calls with
  | nil => intro st; simp [run_submits]
  | cons c rest ih =>
    intro st
    cases hj : find_job st k with
    | some j =>
      rw [run_submits_existing k hk (c :: rest) st j hj]
      simp
    | none =>
      have hbe : (k == "") = false := by simp [hk]
      rw [run_submits_cons]
      cases hc : c.2 with
      | none =>
        have ho : ingest_post st (some k) c.1 Option.none = ⟨st, ⟨400, Option.none⟩, []⟩ := by
          simp [ingest_post]
        rw [ho]
        dsimp only
        simpa using ih st
      | some u =>
        by_cases hu : u = ""
        · have ho : ingest_post st (some k) c.1 (some u) = ⟨st, ⟨400, Option.none⟩, []⟩ := by
            simp [ingest_post, hu]
          rw [ho]
          dsimp only
          simpa using ih st
        · have hbu : (u == "") = false := by simp [hu]
          have ho : ingest_post st (some k) c.1 (some u) =
              ⟨⟨st.jobs ++ [⟨st.nextId, k, JobStatus.PENDING⟩], st.nextId + 1⟩,
               ⟨202, some ⟨st.nextId, k, JobStatus.PENDING⟩⟩, [(st.nextId, u)]⟩ := by
            simp [ingest_post, hbe, hbu, hj]
          rw [ho]
          dsimp only
          rw [run_submits_existing k hk rest _ _
            (find_job_insert st k st.nextId (st.nextId + 1) JobStatus.PENDING hj)]
          simp

/-- Claim C1: idempotent dispatch. A submission carrying an idempotency
key and a usable image uri returns the existing job unchanged with status
200 and schedules nothing when the key is known; only a fresh key creates
a PENDING job, schedules exactly one pipeline execution for it, and
answers 202; and along any sequence of submissions with the same key, at
most one execution is ever scheduled. -/
theorem ingest_exactly_once (st : Store) (k : String) (hk : k ≠ "") :
    (∀ j rk u, find_job st k = some j → u ≠ "" →
       ingest_post st (some k) rk (some u) = ⟨st, ⟨200, some j⟩, []⟩)
    ∧ (∀ rk u, find_job st k = Option.none → u ≠ "" →
       ingest_post st (some k) rk (some u) =
         ⟨⟨st.jobs ++ [⟨st.nextId, k, JobStatus.PENDING⟩], st.nextId + 1⟩,
          ⟨202, some ⟨st.nextId, k, JobStatus.PENDING⟩⟩, [(st.nextId, u)]⟩)
    ∧ (∀ calls : List (String × Option String),
       ((run_submits st (some k) calls).2).length ≤ 1) := by
  refine ⟨?_, ?_, fun calls => sched_le_one k hk calls st⟩
  · intro j rk u hj hu
    have hbe : (k == "") = false := by simp [hk]
    have hbu : (u == "") = false := by simp [hu]
    simp [ingest_post, hbe, hbu, hj]
  · intro rk u hj hu
    have hbe : (k == "") = false := by simp [hk]
    have hbu : (u == "") = false := by simp [hu]
    simp [ingest_post, hbe, hbu, hj]

/-- Witness for C1: a fresh submission on the empty table creates the
PENDING job and schedules once, and a two-submission sequence with the
same key schedules at most once. -/
theorem ingest_exactly_once_witness :
    ingest_post ⟨[], 0⟩ (some "abc") "r" (some "img.jpg") =
      ⟨⟨[⟨0, "abc", JobStatus.PENDING⟩], 1⟩,
       ⟨202, some ⟨0, "abc", JobStatus.PENDING⟩⟩, [(0, "img.jpg")]⟩
    ∧ ((run_submits ⟨[], 0⟩ (some "abc")
        [("r1", some "u1"), ("r2", some "u2")]).2).length ≤ 1 :=
  ⟨(ingest_exactly_once ⟨[], 0⟩ "abc" (by decide)).2.1 "r" "img.jpg" rfl (by decide),
   (ingest_exactly_once ⟨[], 0⟩ "abc" (by decide)).2.2 [("r1", some "u1"), ("r2", some "u2")]⟩

end Pennywise
